import Mathlib

/-!
Verification of the paginated rich-text editing core of the Themis
repository.  The definitions below are a shallow embedding of the
pagination code in `src/components/TiptapEditor.tsx` and
`src/pages/Editor.tsx`: JavaScript numbers are modelled as rationals
extended with the IEEE special values that the relevant code can
actually produce (`Infinity`, `-Infinity`, `NaN`), and each embedded
definition names the source function and lines it is translated from.
-/

/-- Result type of a JavaScript arithmetic expression: a finite value
(modelled as a rational), one of the two infinities, or `NaN`.  The
pagination code can produce the non-finite values only through division
by zero inside `Math.ceil(contentHeight / availableHeightPerPage)`. -/
inductive JsNum where
  | fin (q : ℚ)
  | posInf
  | negInf
  | nan
deriving DecidableEq, Repr

/-- JavaScript division `a / b` for finite operands: finite quotient when
the divisor is nonzero, otherwise `Infinity`, `-Infinity` or `NaN`
according to the sign of the dividend (as in IEEE-754 with a positive
zero divisor). -/
def jsDiv (a b : ℚ) : JsNum :=
  if b ≠ 0 then .fin (a / b)
  else if 0 < a then .posInf
  else if a < 0 then .negInf
  else .nan

/-- Executable ceiling on rationals (kernel-reducible), equal to the
mathematical ceiling by `ratCeil_eq` below. -/
def ratCeil (q : ℚ) : ℤ := -(Rat.floor (-q))

theorem ratCeil_eq (q : ℚ) : ratCeil q = ⌈q⌉ := by
  have h1 : Rat.floor (-q) = ⌊-q⌋ := (Rat.floor_def' (-q)).trans Rat.floor_def.symm
  rw [ratCeil, h1, Int.floor_neg, neg_neg]

/-- JavaScript `Math.ceil`: ceiling on finite values, identity on
`Infinity`, `-Infinity` and `NaN`. -/
def jsCeil : JsNum → JsNum
  | .fin q => .fin (ratCeil q : ℤ)
  | x => x

theorem jsCeil_fin (q : ℚ) : jsCeil (.fin q) = .fin ((⌈q⌉ : ℤ) : ℚ) := by
  rw [jsCeil, ratCeil_eq]

/-- JavaScript `Math.max(1, x)`: `NaN` absorbs, otherwise the larger
value (`Math.max(1, -Infinity) = 1`). -/
def jsMaxOne : JsNum → JsNum
  | .fin q => .fin (if q ≤ 1 then 1 else q)
  | .posInf => .posInf
  | .negInf => .fin 1
  | .nan => .nan

theorem jsMaxOne_fin (q : ℚ) : jsMaxOne (.fin q) = .fin (max 1 q) := by
  simp only [jsMaxOne, max_def]
  rcases le_or_lt q 1 with h | h
  · rcases eq_or_lt_of_le h with rfl | h2
    · simp
    · simp [h, not_le.mpr h2]
  · simp [not_le.mpr h, le_of_lt h]

/-- JavaScript comparison `x <= y`: any comparison involving `NaN` is
false. -/
def jsNumLe : JsNum → JsNum → Bool
  | .nan, _ => false
  | _, .nan => false
  | .negInf, _ => true
  | .fin _, .negInf => false
  | .posInf, .negInf => false
  | .fin a, .fin b => decide (a ≤ b)
  | .fin _, .posInf => true
  | .posInf, .fin _ => false
  | .posInf, .posInf => true

/-- Margin configuration: four non-negative pixel values
(`TiptapEditor.tsx` lines 12-17; `Editor.tsx` line 39 defaults all four
to 72, and `handleMarginChange` at line 587 clamps each to `>= 0` with
`Math.max(0, value)`). -/
structure Margins where
  top : ℕ
  bottom : ℕ
  left : ℕ
  right : ℕ
deriving DecidableEq, Repr

/-- Page height constant used throughout `TiptapEditor.tsx` and
`Editor.tsx`: 1123 px (A4 analog). -/
def pageHeightPx : ℤ := 1123

/-- Inter-page gap constant: 20 px. -/
def pageGapPx : ℤ := 20

/-- From `TiptapEditor.tsx` line 55:
`const availableHeightPerPage = 1123 - margins.top - margins.bottom;`
and identically `getContentHeight` in `Editor.tsx` lines 212-214.
No clamping of any kind is applied in the source. -/
def availableHeightPerPage (m : Margins) : ℤ :=
  pageHeightPx - (m.top : ℤ) - (m.bottom : ℤ)

/-- From `TiptapEditor.tsx` line 56:
`const pagesNeeded = Math.max(1, Math.ceil(contentHeight / availableHeightPerPage));`
with `contentHeight` the measured pixel height (a non-negative JS
number, modelled as a rational). -/
def pagesNeeded (contentHeight : ℚ) (m : Margins) : JsNum :=
  jsMaxOne (jsCeil (jsDiv contentHeight ((availableHeightPerPage m : ℤ) : ℚ)))

/-- From `Editor.tsx` lines 216-229 (`calculatePages`): when the editor
or the content element is not mounted the function returns 1 before
measuring; otherwise it applies the same
`Math.max(1, Math.ceil(contentHeight / pageHeight))` formula with
`pageHeight = getContentHeight()`. -/
def editorCalculatePages (mounted : Bool) (contentHeight : ℚ) (m : Margins) : JsNum :=
  if mounted then pagesNeeded contentHeight m else .fin 1

/-- From `TiptapEditor.tsx` lines 47-58 (`calculatePages`): when any of
the refs or the ProseMirror element is missing the function returns
early and `setPageCount` is never called, so the `pageCount` state keeps
its previous value; otherwise it is set to `pagesNeeded`. -/
def tiptapCalculatePages (mounted : Bool) (prevPageCount : JsNum)
    (contentHeight : ℚ) (m : Margins) : JsNum :=
  if mounted then pagesNeeded contentHeight m else prevPageCount

/-- Initial `pageCount` React state in `TiptapEditor.tsx` line 29:
`useState(1)`. -/
def tiptapInitialPageCount : JsNum := .fin 1

theorem pagesNeeded_of_ne (h : ℚ) (m : Margins)
    (hm : availableHeightPerPage m ≠ 0) :
    pagesNeeded h m =
      .fin (max 1 ((⌈h / ((availableHeightPerPage m : ℤ) : ℚ)⌉ : ℤ) : ℚ)) := by
  have hne : ((availableHeightPerPage m : ℤ) : ℚ) ≠ 0 := by exact_mod_cast hm
  rw [pagesNeeded, jsDiv, if_pos hne, jsCeil_fin, jsMaxOne_fin]

theorem pagesNeeded_of_neg (h : ℚ) (m : Margins) (hh : 0 ≤ h)
    (hm : availableHeightPerPage m < 0) : pagesNeeded h m = .fin 1 := by
  rw [pagesNeeded_of_ne h m hm.ne]
  have hq : ((availableHeightPerPage m : ℤ) : ℚ) < 0 := by exact_mod_cast hm
  have hdiv : h / ((availableHeightPerPage m : ℤ) : ℚ) ≤ 0 :=
    div_nonpos_iff.mpr (Or.inl ⟨hh, hq.le⟩)
  have hceil : (⌈h / ((availableHeightPerPage m : ℤ) : ℚ)⌉ : ℤ) ≤ 0 :=
    Int.ceil_le.mpr (by exact_mod_cast hdiv)
  have hcast : ((⌈h / ((availableHeightPerPage m : ℤ) : ℚ)⌉ : ℤ) : ℚ) ≤ 1 := by
    exact_mod_cast hceil.trans (by norm_num)
  rw [max_eq_left hcast]

theorem pagesNeeded_zero_content (m : Margins)
    (hm : availableHeightPerPage m ≠ 0) : pagesNeeded 0 m = .fin 1 := by
  rw [pagesNeeded_of_ne 0 m hm, zero_div, Int.ceil_zero]
  norm_num

theorem pagesNeeded_of_zero_avail_pos (h : ℚ) (m : Margins) (hh : 0 < h)
    (hm : availableHeightPerPage m = 0) : pagesNeeded h m = .posInf := by
  have hz : ((availableHeightPerPage m : ℤ) : ℚ) = 0 := by exact_mod_cast hm
  rw [pagesNeeded, jsDiv, hz]
  simp only [ne_eq, not_true_eq_false, if_false, if_pos hh]
  rfl

theorem pagesNeeded_of_zero_avail_zero (m : Margins)
    (hm : availableHeightPerPage m = 0) : pagesNeeded 0 m = .nan := by
  have hz : ((availableHeightPerPage m : ℤ) : ℚ) = 0 := by exact_mod_cast hm
  rw [pagesNeeded, jsDiv, hz]
  norm_num
  rfl

theorem pagesNeeded_2000_72 : pagesNeeded 2000 ⟨72, 72, 0, 0⟩ = .fin 3 := by
  rw [pagesNeeded_of_ne 2000 ⟨72, 72, 0, 0⟩ (by decide)]
  have h979 : availableHeightPerPage ⟨72, 72, 0, 0⟩ = 979 := by decide
  rw [h979]
  have hceil : ⌈(2000 : ℚ) / ((979 : ℤ) : ℚ)⌉ = (3 : ℤ) := by
    norm_num [Int.ceil_eq_iff]
  rw [hceil]
  norm_num

theorem pagesNeeded_mono_content (m : Margins) (h1 h2 : ℚ) (hh : 0 ≤ h1)
    (h12 : h1 ≤ h2) (hm : availableHeightPerPage m ≠ 0) :
    jsNumLe (pagesNeeded h1 m) (pagesNeeded h2 m) = true := by
  rcases hm.lt_or_lt with hneg | hpos
  · rw [pagesNeeded_of_neg h1 m hh hneg, pagesNeeded_of_neg h2 m (hh.trans h12) hneg]
    simp [jsNumLe]
  · rw [pagesNeeded_of_ne h1 m hpos.ne', pagesNeeded_of_ne h2 m hpos.ne']
    have hb : (0 : ℚ) < ((availableHeightPerPage m : ℤ) : ℚ) := by exact_mod_cast hpos
    have hdiv : h1 / ((availableHeightPerPage m : ℤ) : ℚ) ≤
        h2 / ((availableHeightPerPage m : ℤ) : ℚ) := by gcongr
    have hceil := Int.ceil_le_ceil hdiv
    simp only [jsNumLe, decide_eq_true_eq]
    exact max_le_max le_rfl (by exact_mod_cast hceil)

/-- C1 (corrected): the source applies no clamp at all.  The usable
height per page of margins `{top: 600, bottom: 600}` is `-77`, not a
value clamped to at least 1; and for margins summing exactly to the
page height the computation does divide by zero, producing `Infinity`
(`pagesNeeded 100 {561, 562} = posInf`). -/
theorem c1_counterexample :
    availableHeightPerPage ⟨600, 600, 0, 0⟩ = -77 ∧
      ¬(1 ≤ availableHeightPerPage ⟨600, 600, 0, 0⟩) ∧
      availableHeightPerPage ⟨561, 562, 0, 0⟩ = 0 ∧
      pagesNeeded 100 ⟨561, 562, 0, 0⟩ = .posInf :=
  ⟨by decide, by decide, by decide,
    pagesNeeded_of_zero_avail_pos 100 ⟨561, 562, 0, 0⟩ (by decide) (by decide)⟩

/-- C1 (amended): no clamping is performed; when the top and bottom
margins sum to strictly more than the page height (usable height
negative) the computation still neither throws nor divides by zero, and
the page count is exactly 1 for every non-negative content height — in
particular margins `{top: 600, bottom: 600, left: 0, right: 0}` yield
`pageCount = 1 ≥ 1`.  (When the margins sum to exactly the page height
the division is by zero, see the counterexample.) -/
theorem c1_amended (m : Margins) (h : ℚ) (hh : 0 ≤ h)
    (hm : availableHeightPerPage m < 0) :
    pagesNeeded h m = .fin 1 ∧ pagesNeeded h ⟨600, 600, 0, 0⟩ = .fin 1 ∧
      availableHeightPerPage ⟨600, 600, 0, 0⟩ = -77 :=
  ⟨pagesNeeded_of_neg h m hh hm,
    pagesNeeded_of_neg h ⟨600, 600, 0, 0⟩ hh (by decide), by decide⟩

theorem c1_witness :
    (0 : ℚ) ≤ 500 ∧ availableHeightPerPage ⟨600, 600, 0, 0⟩ < 0 ∧
      pagesNeeded 500 ⟨600, 600, 0, 0⟩ = .fin 1 :=
  ⟨by decide, by decide,
    (c1_amended ⟨600, 600, 0, 0⟩ 500 (by decide) (by decide)).1⟩

/-- C2 (confirmed): for every non-negative content height and every
margin configuration with positive usable height, the computed page
count is `max(1, ceil(contentHeight / usableHeightPerPage))` with
`usableHeightPerPage = 1123 - top - bottom`; in the concrete instance
`margins = {72, 72, 0, 0}` and `contentHeight = 2000` the usable height
is 979 and the page count is 3. -/
theorem c2_page_count_formula (h : ℚ) (m : Margins) (hh : 0 ≤ h)
    (hm : 0 < availableHeightPerPage m) :
    pagesNeeded h m =
        .fin (max 1 ((⌈h / ((availableHeightPerPage m : ℤ) : ℚ)⌉ : ℤ) : ℚ)) ∧
      availableHeightPerPage ⟨72, 72, 0, 0⟩ = 979 ∧
      pagesNeeded 2000 ⟨72, 72, 0, 0⟩ = .fin 3 :=
  ⟨pagesNeeded_of_ne h m hm.ne', by decide, pagesNeeded_2000_72⟩

theorem c2_witness :
    (0 : ℚ) ≤ 2000 ∧ 0 < availableHeightPerPage ⟨72, 72, 0, 0⟩ ∧
      pagesNeeded 2000 ⟨72, 72, 0, 0⟩ =
        .fin (max 1
          ((⌈(2000 : ℚ) / ((availableHeightPerPage ⟨72, 72, 0, 0⟩ : ℤ) : ℚ)⌉ : ℤ) : ℚ)) :=
  ⟨by decide, by decide,
    (c2_page_count_formula 2000 ⟨72, 72, 0, 0⟩ (by decide) (by decide)).1⟩

/-- C6 (corrected): with the top and bottom margins summing to exactly
the page height (usable height 0), empty content produces `NaN`
(`0 / 0`), not a 1-page geometry. -/
theorem c6_counterexample :
    pagesNeeded 0 ⟨561, 562, 0, 0⟩ = .nan ∧ JsNum.nan ≠ .fin 1 :=
  ⟨pagesNeeded_of_zero_avail_zero ⟨561, 562, 0, 0⟩ (by decide), by decide⟩

/-- C6 (amended): for every margin configuration whose usable height is
nonzero, empty content (measured height 0) yields page count 1; and
when the editing surface is not mounted, `calculatePages` in
`Editor.tsx` returns 1 while `calculatePages` in `TiptapEditor.tsx`
leaves the page count at its initial value 1 — no error in either
case.  (Usable height exactly 0 instead yields `NaN`, see the
counterexample.) -/
theorem c6_amended (m : Margins) (h : ℚ)
    (hm : availableHeightPerPage m ≠ 0) :
    pagesNeeded 0 m = .fin 1 ∧
      editorCalculatePages false h m = .fin 1 ∧
      tiptapCalculatePages false tiptapInitialPageCount h m = .fin 1 :=
  ⟨pagesNeeded_zero_content m hm, rfl, rfl⟩

theorem c6_witness :
    availableHeightPerPage ⟨72, 72, 72, 72⟩ ≠ 0 ∧
      pagesNeeded 0 ⟨72, 72, 72, 72⟩ = .fin 1 :=
  ⟨by decide, (c6_amended ⟨72, 72, 72, 72⟩ 0 (by decide)).1⟩

/-- C7 (corrected): increasing the top margin can strictly decrease
the page count once the margins overrun the page height: at content
height 2000, margins `{72, 72}` give 3 pages but margins `{1100, 72}`
(usable height negative) give 1 page. -/
theorem c7_counterexample :
    pagesNeeded 2000 ⟨72, 72, 0, 0⟩ = .fin 3 ∧
      pagesNeeded 2000 ⟨1100, 72, 0, 0⟩ = .fin 1 ∧
      jsNumLe (.fin 3) (.fin 1) = false := by
  refine ⟨pagesNeeded_2000_72,
    pagesNeeded_of_neg 2000 ⟨1100, 72, 0, 0⟩ (by decide) (by decide), ?_⟩
  simp [jsNumLe]

/-- C7 (amended): for fixed content height, increasing the top (or
bottom) margin can only increase or hold constant the page count as
long as the enlarged margins still leave a positive usable height; and
after the change the page count is exactly the formula re-applied with
the new margins. -/
theorem c7_amended (h : ℚ) (m m2 : Margins) (hh : 0 ≤ h)
    (hsum : m.top + m.bottom ≤ m2.top + m2.bottom)
    (hpos : 0 < availableHeightPerPage m2) :
    jsNumLe (pagesNeeded h m) (pagesNeeded h m2) = true ∧
      pagesNeeded h m2 =
        .fin (max 1 ((⌈h / ((availableHeightPerPage m2 : ℤ) : ℚ)⌉ : ℤ) : ℚ)) := by
  have havail : availableHeightPerPage m2 ≤ availableHeightPerPage m := by
    simp only [availableHeightPerPage, pageHeightPx]
    omega
  have hpos1 : 0 < availableHeightPerPage m := lt_of_lt_of_le hpos havail
  refine ⟨?_, pagesNeeded_of_ne h m2 hpos.ne'⟩
  rw [pagesNeeded_of_ne h m hpos1.ne', pagesNeeded_of_ne h m2 hpos.ne']
  have hb1 : (0 : ℚ) < ((availableHeightPerPage m2 : ℤ) : ℚ) := by exact_mod_cast hpos
  have hba : ((availableHeightPerPage m2 : ℤ) : ℚ) ≤
      ((availableHeightPerPage m : ℤ) : ℚ) := by exact_mod_cast havail
  have hdiv : h / ((availableHeightPerPage m : ℤ) : ℚ) ≤
      h / ((availableHeightPerPage m2 : ℤ) : ℚ) := by gcongr
  have hceil := Int.ceil_le_ceil hdiv
  simp only [jsNumLe, decide_eq_true_eq]
  exact max_le_max le_rfl (by exact_mod_cast hceil)

theorem c7_witness :
    (0 : ℚ) ≤ 2000 ∧
      (Margins.mk 72 72 0 0).top + (Margins.mk 72 72 0 0).bottom ≤
        (Margins.mk 100 72 0 0).top + (Margins.mk 100 72 0 0).bottom ∧
      0 < availableHeightPerPage ⟨100, 72, 0, 0⟩ ∧
      jsNumLe (pagesNeeded 2000 ⟨72, 72, 0, 0⟩)
        (pagesNeeded 2000 ⟨100, 72, 0, 0⟩) = true :=
  ⟨by decide, by decide, by decide,
    (c7_amended 2000 ⟨72, 72, 0, 0⟩ ⟨100, 72, 0, 0⟩
      (by decide) (by decide) (by decide)).1⟩

/-- C8 (corrected): with top and bottom margins summing to exactly the
page height, the page count at height 0 is `NaN` and at height 1 is
`Infinity`; the JavaScript comparison `NaN <= Infinity` is false, so
monotonicity fails for that margin configuration. -/
theorem c8_counterexample :
    pagesNeeded 0 ⟨561, 562, 0, 0⟩ = .nan ∧
      pagesNeeded 1 ⟨561, 562, 0, 0⟩ = .posInf ∧
      jsNumLe JsNum.nan .posInf = false :=
  ⟨pagesNeeded_of_zero_avail_zero ⟨561, 562, 0, 0⟩ (by decide),
    pagesNeeded_of_zero_avail_pos 1 ⟨561, 562, 0, 0⟩ (by decide) (by decide),
    rfl⟩

/-- C8 (amended): for every fixed margin configuration whose usable
height is nonzero, the page count is monotone non-decreasing in the
content height. -/
theorem c8_amended (m : Margins) (h1 h2 : ℚ) (hh : 0 ≤ h1) (h12 : h1 < h2)
    (hm : availableHeightPerPage m ≠ 0) :
    jsNumLe (pagesNeeded h1 m) (pagesNeeded h2 m) = true :=
  pagesNeeded_mono_content m h1 h2 hh h12.le hm

theorem c8_witness :
    (0 : ℚ) ≤ 100 ∧ (100 : ℚ) < 2000 ∧
      availableHeightPerPage ⟨72, 72, 0, 0⟩ ≠ 0 ∧
      jsNumLe (pagesNeeded 100 ⟨72, 72, 0, 0⟩)
        (pagesNeeded 2000 ⟨72, 72, 0, 0⟩) = true :=
  ⟨by decide, by decide, by decide,
    c8_amended ⟨72, 72, 0, 0⟩ 100 2000 (by decide) (by decide) (by decide)⟩

/-- Colors of the CSS gradient mask stops built in `TiptapEditor.tsx`
lines 69-100: `transparent` bands hide the flowing content, `black`
bands keep it visible. -/
inductive MaskColor where
  | transparent
  | black
deriving DecidableEq, Repr

/-- Stops pushed for page `i` (0-indexed, out of `n` pages) by the loop
in `TiptapEditor.tsx` lines 72-95, with `pageTop = i * (1123 + 20)`:
`transparent 0` for the first page or `transparent (pageTop - 20)` for
later pages, then `black (pageTop + margins.top)`,
`black (pageTop + 1123 - margins.bottom)`,
`transparent (pageTop + 1123)`, and for every page but the last
`transparent (pageTop + 1123 + 20)`. -/
def pageStops (m : Margins) (n i : ℕ) : List (MaskColor × ℤ) :=
  let pageTop : ℤ := (i : ℤ) * (1123 + 20)
  [(if i = 0 then (MaskColor.transparent, 0)
    else (MaskColor.transparent, pageTop - 20)),
    (MaskColor.black, pageTop + (m.top : ℤ)),
    (MaskColor.black, pageTop + 1123 - (m.bottom : ℤ)),
    (MaskColor.transparent, pageTop + 1123)] ++
    (if i + 1 < n then [(MaskColor.transparent, pageTop + 1123 + 20)] else [])

/-- The full stop list of the mask gradient: the loop body concatenated
over `i = 0 .. pagesNeeded - 1`. -/
def maskStops (m : Margins) (n : ℕ) : List (MaskColor × ℤ) :=
  (List.range n).flatMap (pageStops m n)

/-- Offsets of a stop list, in push order. -/
def stopOffsets (l : List (MaskColor × ℤ)) : List ℤ := l.map Prod.snd

/-- Executable test that a list of offsets is strictly increasing. -/
def strictlyIncreasing : List ℤ → Bool
  | [] => true
  | [_] => true
  | a :: b :: rest => decide (a < b) && strictlyIncreasing (b :: rest)

/-- The first stop whose color is visible (`black`), if any. -/
def firstVisibleStop (l : List (MaskColor × ℤ)) : Option ℤ :=
  (l.find? (fun s => s.1 == MaskColor.black)).map Prod.snd

theorem maskStops_head (m : Margins) (n : ℕ) (hn : 1 ≤ n) :
    (maskStops m n).head? = some (MaskColor.transparent, 0) := by
  obtain ⟨k, rfl⟩ : ∃ k, n = k + 1 := ⟨n - 1, by omega⟩
  simp [maskStops, List.range_succ_eq_map, pageStops]

/-- C3 (corrected): the stop list is not strictly increasing: already
for the spec's own geometry (margins 72/72) with two pages, the last
stop of page 0 sits at offset 1143 while the first stop of page 1 sits
back at offset 1123. -/
theorem c3_counterexample :
    strictlyIncreasing (stopOffsets (maskStops ⟨72, 72, 0, 0⟩ 2)) = false ∧
      stopOffsets (maskStops ⟨72, 72, 0, 0⟩ 2) =
        [0, 72, 1051, 1123, 1143, 1123, 1215, 2194, 2266] := by decide

/-- C3 (amended): the first stop of the visibility profile is always
`(0, hidden)` (also when `margins.top = 0`); for the property-4
geometry (margins 72/72, three pages) the first visible stop begins at
offset 72; and the stops are strictly increasing only within a
single-page mask with `0 < top`, `0 < bottom` and
`top + bottom < 1123` — across pages the profile revisits earlier
offsets, see the counterexample. -/
theorem c3_amended (m : Margins) (n : ℕ) (hn : 1 ≤ n) :
    (maskStops m n).head? = some (MaskColor.transparent, 0) ∧
      (0 < m.top → 0 < m.bottom → m.top + m.bottom < 1123 →
        strictlyIncreasing (stopOffsets (maskStops m 1)) = true) ∧
      firstVisibleStop (maskStops ⟨72, 72, 0, 0⟩ 3) = some 72 := by
  refine ⟨maskStops_head m n hn, ?_, by decide⟩
  intro ht hb hs
  have hr : List.range 1 = [0] := rfl
  have h1 : stopOffsets (maskStops m 1) =
      [0, (m.top : ℤ), 1123 - (m.bottom : ℤ), 1123] := by
    simp [maskStops, hr, pageStops, stopOffsets]
  rw [h1]
  simp only [strictlyIncreasing, Bool.and_eq_true, Bool.and_true,
    decide_eq_true_eq]
  omega

theorem c3_witness :
    1 ≤ 2 ∧
      (maskStops ⟨0, 72, 0, 0⟩ 2).head? = some (MaskColor.transparent, 0) ∧
      strictlyIncreasing (stopOffsets (maskStops ⟨72, 72, 0, 0⟩ 1)) = true ∧
      firstVisibleStop (maskStops ⟨72, 72, 0, 0⟩ 3) = some 72 :=
  ⟨by decide,
    (c3_amended ⟨0, 72, 0, 0⟩ 2 (by decide)).1,
    (c3_amended ⟨72, 72, 0, 0⟩ 2 (by decide)).2.1 (by decide) (by decide)
      (by decide),
    (c3_amended ⟨72, 72, 0, 0⟩ 2 (by decide)).2.2⟩

/-- From `TiptapEditor.tsx` lines 38-43: the editor's `onUpdate`
handler runs once per content mutation and unconditionally enqueues one
`setTimeout(() => calculatePages(), 50)` task; the component contains
no pending flag and no `clearTimeout`, so nothing is cancelled or
coalesced. -/
def onUpdateEnqueue (pendingRecomputes : ℕ) : ℕ := pendingRecomputes + 1

/-- Number of queued recompute tasks after `k` rapid successive
mutations, each firing the `onUpdate` handler once, starting from
`pending` already-queued tasks. -/
def afterMutations : ℕ → ℕ → ℕ
  | 0, pending => pending
  | k + 1, pending => afterMutations k (onUpdateEnqueue pending)

/-- Scheduling primitive used to defer a recompute cycle. -/
inductive DeferralKind where
  | timer (ms : ℕ)
  | rafThenTimer (ms : ℕ)
deriving DecidableEq, Repr

/-- `TiptapEditor.tsx` line 42 defers the recompute with a bare
`setTimeout(..., 50)`. -/
def tiptapRecomputeDeferral : DeferralKind := .timer 50

/-- `Editor.tsx` lines 191-199 defer the recompute with
`requestAnimationFrame(() => setTimeout(..., 50))`, again once per
`update`/`transaction` event. -/
def editorRecomputeDeferral : DeferralKind := .rafThenTimer 50

/-- C4 (corrected): ten rapid successive mutations enqueue ten
recompute tasks, not one, and the deferral in `TiptapEditor.tsx` is a
bare 50 ms timer. -/
theorem c4_counterexample :
    afterMutations 10 0 = 10 ∧ afterMutations 10 0 ≠ 1 ∧
      tiptapRecomputeDeferral = .timer 50 := by decide

/-- C4 (amended): every content mutation enqueues its own deferred
recompute — after `k` mutations the queue holds `pending + k` tasks,
so ten mutations within one frame enqueue ten cycles; the deferral is
a bare 50 ms timer in `TiptapEditor.tsx` and a
`requestAnimationFrame` followed by a 50 ms timer in `Editor.tsx`, not
a coalescing post-paint scheduler. -/
theorem c4_amended (k pending : ℕ) :
    afterMutations k pending = pending + k ∧
      tiptapRecomputeDeferral = .timer 50 ∧
      editorRecomputeDeferral = .rafThenTimer 50 := by
  refine ⟨?_, rfl, rfl⟩
  induction k generalizing pending with
  | zero => rfl
  | succ j ih =>
      rw [afterMutations, ih]
      simp [onUpdateEnqueue]
      omega

/-- JavaScript whitespace test (ASCII range), as used by
`String.prototype.trim` and the regex class `\s` in
`handleLetterUpdate` (`Editor.tsx` lines 510-540). -/
def isJsSpace (c : Char) : Bool :=
  c = ' ' || c = '\t' || c = '\n' || c = '\r' || c = '\x0b' || c = '\x0c'

/-- JavaScript `String.prototype.trim`: drop leading and trailing
whitespace. -/
def jsTrim (l : List Char) : List Char :=
  ((l.dropWhile isJsSpace).reverse.dropWhile isJsSpace).reverse

def startsWithChars : List Char → List Char → Bool
  | [], _ => true
  | _ :: _, [] => false
  | p :: ps, c :: cs => p = c && startsWithChars ps cs

/-- JavaScript `String.prototype.includes` (case-sensitive substring
test), on character lists. -/
def jsIncludesL (pat : List Char) : List Char → Bool
  | [] => startsWithChars pat []
  | c :: rest => startsWithChars pat (c :: rest) || jsIncludesL pat rest

def pTag : List Char := ['<', 'p', '>']

def divTag : List Char := ['<', 'd', 'i', 'v', '>']

def closePTag : List Char := ['<', '/', 'p', '>']

def isPChar (c : Char) : Bool := c = 'p' || c = 'P'

/-- Matches a literal `<p>` (case-insensitive, per the `/i` regex flag)
at the head of the list, returning the remainder. -/
def matchOpenTagAt : List Char → Option (List Char)
  | '<' :: c :: '>' :: rest => if isPChar c then some rest else none
  | _ => none

/-- Matches a literal `</p>` (case-insensitive) at the head of the
list, returning the remainder. -/
def matchCloseTagAt : List Char → Option (List Char)
  | '<' :: '/' :: c :: '>' :: rest => if isPChar c then some rest else none
  | _ => none

/-- The regex replacement
`cleanedContent.replace(/^<p>\s*<\/p>\s*/i, '')` from `Editor.tsx`
line 519: remove a leading empty paragraph together with the
whitespace inside and after it, if present. -/
def stripLeadingEmptyP (l : List Char) : List Char :=
  match matchOpenTagAt l with
  | none => l
  | some r1 =>
    match matchCloseTagAt (r1.dropWhile isJsSpace) with
    | none => l
    | some r2 => r2.dropWhile isJsSpace

/-- Matches a literal `</p>` (case-insensitive) at the head of a
REVERSED list. -/
def matchCloseTagRev : List Char → Option (List Char)
  | '>' :: c :: '/' :: '<' :: rest => if isPChar c then some rest else none
  | _ => none

/-- Matches a literal `<p>` (case-insensitive) at the head of a
REVERSED list. -/
def matchOpenTagRev : List Char → Option (List Char)
  | '>' :: c :: '<' :: rest => if isPChar c then some rest else none
  | _ => none

/-- The regex replacement
`cleanedContent.replace(/\s*<p>\s*<\/p>$/i, '')` from `Editor.tsx`
line 520: remove a trailing empty paragraph together with the
whitespace inside and before it, if present. -/
def stripTrailingEmptyP (l : List Char) : List Char :=
  match matchCloseTagRev l.reverse with
  | none => l
  | some r1 =>
    match matchOpenTagRev (r1.dropWhile isJsSpace) with
    | none => l
    | some r2 => (r2.dropWhile isJsSpace).reverse

/-- JavaScript `split('\n\n')` (leftmost, non-overlapping) from
`Editor.tsx` line 526, with an accumulator for the current piece. -/
def splitNlNl : List Char → List Char → List (List Char)
  | acc, '\n' :: '\n' :: rest => acc.reverse :: splitNlNl [] rest
  | acc, c :: rest => splitNlNl (c :: acc) rest
  | acc, [] => [acc.reverse]

/-- JavaScript `para.replace(/\n/g, '<br>')` from `Editor.tsx`
line 529. -/
def replaceNlBr : List Char → List Char
  | [] => []
  | '\n' :: rest => '<' :: 'b' :: 'r' :: '>' :: replaceNlBr rest
  | c :: rest => c :: replaceNlBr rest

/-- The plain-text branch of `handleLetterUpdate` (`Editor.tsx` lines
524-532): split on blank lines, trim each piece, drop empty pieces,
wrap each piece in `<p>...</p>` converting inner newlines to `<br>`,
and join. -/
def joinedParas (cleaned : List Char) : List Char :=
  ((((splitNlNl [] cleaned).map jsTrim).filter
      (fun p => decide (0 < p.length))).map
    (fun p => pTag ++ replaceNlBr p ++ closePTag)).flatten

/-- Modelled from the spec: the rich-text buffer itself (tiptap's
`editor.commands.setContent` + `editor.getHTML`) is library code, not
part of this repository.  Section 4.1 of the spec states that
`getSerialized` returns the loaded content in the same markup dialect,
observably equivalent; the normalization is therefore modelled as the
identity on serialized markup. -/
def tiptapSetContent (s : String) : String := s

/-- The single continuous editing buffer: its current serialized HTML
(`editor.getHTML()`). -/
structure BufferState where
  html : String
deriving DecidableEq, Repr

/-- `getSerialized`: `editor.getHTML()` read from the buffer. -/
def getSerialized (st : BufferState) : String := st.html

/-- The argument passed to `setContent` by the load path: JavaScript
`content || '<p></p>'` (falsy `null` and `""` replaced by the canonical
empty paragraph), from `TiptapEditor.tsx` lines 36 and 133. -/
def loadPath (c : Option String) : String :=
  match c with
  | none => "<p></p>"
  | some s => if s = "" then "<p></p>" else s

/-- The content effect of `TiptapEditor.tsx` lines 128-136: when the
`content` prop is not `undefined` and differs from the editor's current
HTML, the editor content is replaced with `content || '<p></p>'`;
when it is equal, nothing happens.  The prop is modelled as
`Option (Option String)`: `none` = `undefined`, `some none` = `null`. -/
def contentEffect (st : BufferState) (prop : Option (Option String)) : BufferState :=
  match prop with
  | none => st
  | some c => if c = some st.html then st else ⟨tiptapSetContent (loadPath c)⟩

/-- Initial buffer content at mount (`useEditor` in `TiptapEditor.tsx`
line 36): `content: content || '<p></p>'`. -/
def bufferAtMount (c : Option String) : BufferState :=
  ⟨tiptapSetContent (loadPath c)⟩

/-- The HTML branch of `handleLetterUpdate` (`Editor.tsx` lines
517-522): strip a leading and a trailing empty paragraph, then
`setContent(cleanedContent || '<p></p>')`. -/
def htmlBranch (cleaned : List Char) : String :=
  if stripTrailingEmptyP (stripLeadingEmptyP cleaned) = [] then "<p></p>"
  else String.mk (stripTrailingEmptyP (stripLeadingEmptyP cleaned))

/-- The plain-text branch result of `handleLetterUpdate` (`Editor.tsx`
lines 524-532): `setContent(htmlContent || '<p></p>')`. -/
def textBranch (cleaned : List Char) : String :=
  if joinedParas cleaned = [] then "<p></p>" else String.mk (joinedParas cleaned)

/-- `handleLetterUpdate` from `Editor.tsx` lines 510-540 (the bulk
replacement applied when the AI chat collaborator supplies an updated
letter): trim, then if the result contains `<p>` or `<div>` take the
HTML branch, otherwise the plain-text conversion branch; the value
computed here is what is passed to `editor.commands.setContent`. -/
def handleLetterUpdateContent (updatedLetter : String) : String :=
  if jsIncludesL pTag (jsTrim updatedLetter.toList) ||
      jsIncludesL divTag (jsTrim updatedLetter.toList) then
    htmlBranch (jsTrim updatedLetter.toList)
  else
    textBranch (jsTrim updatedLetter.toList)

/-- Buffer content after the AI bulk replacement of `updatedLetter`. -/
def bufferAfterLetterUpdate (updatedLetter : String) : BufferState :=
  ⟨tiptapSetContent (handleLetterUpdateContent updatedLetter)⟩

/-- C5 (corrected): the AI bulk replacement is not applied through the
load path: for the replacement string `"<p></p><p>Hi</p>"`,
`handleLetterUpdate` strips the leading empty paragraph and sets the
buffer to `"<p>Hi</p>"`, while loading the same string at mount time
sets the buffer to `"<p></p><p>Hi</p>"`. -/
theorem c5_counterexample :
    bufferAfterLetterUpdate "<p></p><p>Hi</p>" = ⟨"<p>Hi</p>"⟩ ∧
      bufferAtMount (some "<p></p><p>Hi</p>") = ⟨"<p></p><p>Hi</p>"⟩ ∧
      ("<p>Hi</p>" : String) ≠ "<p></p><p>Hi</p>" := by
  refine ⟨by decide, by decide, by decide⟩

/-- C5 (amended): the AI-supplied replacement is preprocessed (trimmed;
leading/trailing empty paragraphs stripped when it contains `<p>` or
`<div>`; otherwise converted from plain text into paragraphs) before
`setContent`, so the bulk-replace path coincides with the load path
only for nonempty strings on which this cleaning is the identity. -/
theorem c5_amended (s : String)
    (htrim : jsTrim s.toList = s.toList)
    (hinc : jsIncludesL pTag s.toList = true)
    (hlead : stripLeadingEmptyP s.toList = s.toList)
    (htrail : stripTrailingEmptyP s.toList = s.toList)
    (hne : s ≠ "") :
    bufferAfterLetterUpdate s = bufferAtMount (some s) := by
  have hl : s.toList ≠ [] := by
    intro h
    apply hne
    have hs : s = String.mk s.toList := rfl
    rw [hs, h]
  have hcond : (jsIncludesL pTag s.toList || jsIncludesL divTag s.toList) = true := by
    rw [hinc]
    exact Bool.true_or _
  rw [bufferAfterLetterUpdate, bufferAtMount, handleLetterUpdateContent, htrim,
    if_pos hcond, htmlBranch, hlead, htrail, if_neg hl, tiptapSetContent]
  simp only [loadPath]
  rw [if_neg hne]
  rfl

theorem c5_witness :
    (jsTrim "<p>Hi</p>".toList = "<p>Hi</p>".toList ∧
      jsIncludesL pTag "<p>Hi</p>".toList = true ∧
      stripLeadingEmptyP "<p>Hi</p>".toList = "<p>Hi</p>".toList ∧
      stripTrailingEmptyP "<p>Hi</p>".toList = "<p>Hi</p>".toList ∧
      ("<p>Hi</p>" : String) ≠ "") ∧
      bufferAfterLetterUpdate "<p>Hi</p>" = bufferAtMount (some "<p>Hi</p>") :=
  ⟨⟨by decide, by decide, by decide, by decide, by decide⟩,
    c5_amended "<p>Hi</p>" (by decide) (by decide) (by decide) (by decide)
      (by decide)⟩

/-- C9 (confirmed): for every nonempty serialized content `c`, the
serialized content after loading `c` is `c` itself, and loading the
buffer's own serialized content back is a no-op (the content effect's
equality guard skips `setContent` entirely). -/
theorem c9_round_trip (st : BufferState) (c : String) (hc : c ≠ "") :
    getSerialized (contentEffect st (some (some c))) = c ∧
      contentEffect st (some (some (getSerialized st))) = st := by
  refine ⟨?_, ?_⟩
  · by_cases h : (some c : Option String) = some st.html
    · have hh2 : st.html = c := by
        injection h with h2
        exact h2.symm
      simp [contentEffect, h, getSerialized, hh2]
    · simp [contentEffect, h, getSerialized, tiptapSetContent, loadPath, hc]
  · simp [contentEffect, getSerialized]

theorem c9_witness :
    ("<p>Hi</p>" : String) ≠ "" ∧
      (getSerialized (contentEffect ⟨"<p></p>"⟩ (some (some "<p>Hi</p>"))) =
          "<p>Hi</p>" ∧
        contentEffect ⟨"<p></p>"⟩
            (some (some (getSerialized ⟨"<p></p>"⟩))) = ⟨"<p></p>"⟩) :=
  ⟨by decide, c9_round_trip ⟨"<p></p>"⟩ "<p>Hi</p>" (by decide)⟩

/-- C10 (confirmed): loading `null` (or the empty string) and then
reading the serialized content gives the canonical empty document
`"<p></p>"` — a single empty paragraph, which is not the empty string
(and, by the type of `getSerialized`, never null); this holds both for
the mount-time path and for the content effect, for every buffer whose
current serialization is nonempty. -/
theorem c10_canonical_empty (st : BufferState) (hst : st.html ≠ "") :
    getSerialized (contentEffect st (some none)) = "<p></p>" ∧
      getSerialized (contentEffect st (some (some ""))) = "<p></p>" ∧
      bufferAtMount none = ⟨"<p></p>"⟩ ∧
      bufferAtMount (some "") = ⟨"<p></p>"⟩ ∧
      ("<p></p>" : String) ≠ "" := by
  refine ⟨?_, ?_, rfl, by decide, by decide⟩
  · simp [contentEffect, getSerialized, tiptapSetContent, loadPath]
  · have h : (some "" : Option String) ≠ some st.html := by
      intro h
      refine hst ?_
      injection h with h2
      exact h2.symm
    simp [contentEffect, h, getSerialized, tiptapSetContent, loadPath]

theorem c10_witness :
    (BufferState.mk "<p>Hi</p>").html ≠ "" ∧
      getSerialized (contentEffect ⟨"<p>Hi</p>"⟩ (some none)) = "<p></p>" :=
  ⟨by decide, (c10_canonical_empty ⟨"<p>Hi</p>"⟩ (by decide)).1⟩
